import Mathlib

/-!
# Shallow embedding of `imhotep/reporters/github.py`

This file embeds the GitHub reporter classes (`GitHubReporter`,
`CommitReporter`, `PRReporter`, `PRReviewReporter`) of the imhotep
repository in Lean 4 and proves properties of them.

Modelling choices, stated once:

* A GitHub review comment (`comment["path"]`, `comment["position"]`,
  `comment["body"]`, `comment["user"]["login"]`) is a `Comment` record.
* The HTTP transport (`self.requester`) is modelled by two oracle
  functions: `getOracle : String → GetResp` for `requester.get(url)`
  (its `.json()` body is the list of comments) and
  `postOracle : String → PostBody → PostResp` for
  `requester.post(url, payload)`.  Oracles are pure, so the same URL
  always yields the same response; for the properties proved here
  (call counting, cache behaviour, payload shape) this loses nothing.
* Every method returns `(result, new state, event trace)`.  The trace
  records each transport call (`Event.get`, `Event.post`) in order and
  each `log.error` call (`Event.logError`); `log.debug` calls are not
  modelled.  "The method performs no POST" is "the trace contains no
  `Event.post`".
* Python values that may be either a `str` or a `List[str]` (the
  `message` argument) are a `PyVal`.  Iterating a Python `str` yields
  its characters as one-character strings (`strElems`), `x in s` on
  strings is substring containment (`pyInStr`), and `not x` is
  emptiness of the iterate (`pyIsEmpty`).  This captures the
  `isinstance(message, str)` normalisation in `get_payload` and the
  un-normalised iteration in `clean_already_reported`.
* Python functions here cannot raise (no operation in the translated
  code can throw on the modelled data), so the embedding is total.
-/

/-- A GitHub review comment as consumed by `clean_already_reported`:
`path`, `position`, `body`, `user.login`. -/
structure Comment where
  path : String
  position : Nat
  body : String
  userLogin : String
deriving DecidableEq, Repr

/-- Response of `requester.get`: status code and the `.json()` body,
which for the comments endpoints is a list of comments. -/
structure GetResp where
  status_code : Nat
  body : List Comment
deriving DecidableEq, Repr

/-- Response of `requester.post`: only the status code is inspected. -/
structure PostResp where
  status_code : Nat
deriving DecidableEq, Repr

/-- A single line-comment payload as built by `get_payload`:
`body`, `path`, `position`, and the optional commit entry
(`payload[commit_key] = commit`), stored as a `(key, value)` pair. -/
structure Payload where
  body : String
  path : String
  position : Nat
  commitField : Option (String × String)
deriving DecidableEq, Repr

/-- The JSON bodies this module POSTs: a single line comment
(`CommitReporter`/`PRReporter`), a review (`submit_review`), or an
issue comment (`post_comment`). -/
inductive PostBody where
  | comment (p : Payload)
  | review (body : String) (event : String) (comments : List Payload)
  | issueComment (body : String)
deriving DecidableEq, Repr

/-- Observable effects of a method call, in order: transport reads,
transport writes, and `log.error` calls. -/
inductive Event where
  | get (url : String)
  | post (url : String) (body : PostBody)
  | logError
deriving DecidableEq, Repr

/-- `true` iff the event is a transport GET. -/
def Event.isGet : Event → Bool
  | .get _ => true
  | _ => false

/-- `true` iff the event is a transport POST. -/
def Event.isPost : Event → Bool
  | .post _ _ => true
  | _ => false

/-- Number of transport GETs in a trace. -/
def countGets (evs : List Event) : Nat := (evs.filter Event.isGet).length

/-- Number of transport POSTs in a trace. -/
def countPosts (evs : List Event) : Nat := (evs.filter Event.isPost).length

/-- Constructor data of a `GitHubReporter`: `requester.username`,
`domain`, `repo_name`. -/
structure Ctx where
  username : String
  domain : String
  repoName : String
deriving DecidableEq, Repr

/-- Mutable state of a `GitHubReporter`: the `_comments` cache. -/
structure GHState where
  _comments : List Comment
deriving DecidableEq, Repr

/-- A Python value that is either a `str` or a `List[str]`, as the
`message` argument may be. -/
inductive PyVal where
  | str (s : String)
  | list (l : List String)
deriving DecidableEq, Repr

/-- Iterating a Python `str` yields its characters as one-character
strings. -/
def strElems (s : String) : List String := s.data.map String.singleton

/-- `for m in message`: elements of a `PyVal`. -/
def pyElems : PyVal → List String
  | .str s => strElems s
  | .list l => l

/-- Python truthiness test `not message` for a `str` or list value:
both are falsy exactly when they have no elements. -/
def pyIsEmpty (v : PyVal) : Bool := (pyElems v).isEmpty

/-- Python `needle in hay` on strings: substring containment. -/
def pyInStr (needle hay : String) : Bool :=
  (List.range (hay.data.length + 1)).any fun i =>
    needle.data.isPrefixOf (hay.data.drop i)

/-- The condition of the `if` inside `clean_already_reported`'s loop:
`comment["path"] == file_name and comment["position"] == position and
comment["user"]["login"] == self.requester.username`. -/
def matchesComment (username file_name : String) (position : Nat) (c : Comment) : Bool :=
  c.path == file_name && c.position == position && c.userLogin == username

/-- `GitHubReporter.clean_already_reported(comments, file_name,
position, message)`: scan `comments`; on the first match return
`[m for m in message if m not in comment["body"]]` (a list), else
return `message` unchanged. -/
def clean_already_reported (username : String) (comments : List Comment)
    (file_name : String) (position : Nat) (message : PyVal) : PyVal :=
  match comments with
  | [] => message
  | c :: rest =>
    if matchesComment username file_name position c then
      .list ((pyElems message).filter fun m => !(pyInStr m c.body))
    else
      clean_already_reported username rest file_name position message

/-- `GitHubReporter.get_comments(report_url)`: if the cache is falsy
(empty), GET the url; on status ≥ 400 log the error and return the
cache as-is; otherwise store the body and return it. -/
def get_comments (getOracle : String → GetResp) (st : GHState)
    (report_url : String) : List Comment × GHState × List Event :=
  if st._comments.isEmpty then
    let result := getOracle report_url
    if result.status_code ≥ 400 then
      (st._comments, st, [.get report_url, .logError])
    else
      (result.body, ⟨result.body⟩, [.get report_url])
  else
    (st._comments, st, [])

/-- `GitHubReporter.convert_message_to_string(message)`: fold
`final_message += f"* {submessage}\n"` from the empty string. -/
def convert_message_to_string (message : List String) : String :=
  message.foldl (fun final_message submessage =>
    final_message ++ "* " ++ submessage ++ "\n") ""

/-- The optional commit entry of a payload:
`if commit_key is not None and commit is not None: payload[commit_key] = commit`. -/
def mkCommitField (commit_key commit : Option String) : Option (String × String) :=
  match commit_key, commit with
  | some k, some c => some (k, c)
  | _, _ => none

/-- The `isinstance(message, str)` check at the top of `get_payload`:
a `str` message becomes the one-element list `[message]`, a list is
left as it is. -/
def normalizeMessage : PyVal → PyVal
  | .str s => .list [s]
  | .list l => .list l

/-- `GitHubReporter.get_payload(comments_url, commit, commit_key,
file_name, position, message)`: fetch existing comments, normalise a
`str` message to a one-element list, drop already-reported messages,
and return `None` if nothing survives, else the payload. -/
def get_payload (ctx : Ctx) (getOracle : String → GetResp) (st : GHState)
    (comments_url : String) (commit commit_key : Option String)
    (file_name : String) (position : Nat) (message : PyVal) :
    Option Payload × GHState × List Event :=
  let r := get_comments getOracle st comments_url
  let message1 := normalizeMessage message
  let message2 := clean_already_reported ctx.username r.1 file_name position message1
  if pyIsEmpty message2 then
    (none, r.2.1, r.2.2)
  else
    (some ⟨convert_message_to_string (pyElems message2), file_name, position,
           mkCommitField commit_key commit⟩,
     r.2.1, r.2.2)

/-- The URL `CommitReporter.report_line` builds:
`https://api.{domain}/repos/{repo_name}/commits/{commit}/comments`. -/
def commitCommentsUrl (ctx : Ctx) (commit : String) : String :=
  "https://api." ++ ctx.domain ++ "/repos/" ++ ctx.repoName ++
    "/commits/" ++ commit ++ "/comments"

namespace CommitReporter

/-- The tail of `CommitReporter.report_line` after the explicit
`clean_already_reported` call: `get_payload` on the cleaned message,
then POST the payload if any, logging an error on status ≥ 400. -/
def report_line_rest (ctx : Ctx) (getOracle : String → GetResp)
    (postOracle : String → PostBody → PostResp) (st1 : GHState)
    (ev1 : List Event) (report_url commit file_name : String)
    (position : Nat) (cleaned : PyVal) :
    Option PostResp × GHState × List Event :=
  let r2 := get_payload ctx getOracle st1 report_url (some commit)
    (some "commit_sha") file_name position cleaned
  match r2.1 with
  | none => (none, r2.2.1, ev1 ++ r2.2.2)
  | some payload =>
    let result := postOracle report_url (.comment payload)
    (some result, r2.2.1,
     ev1 ++ r2.2.2 ++ [.post report_url (.comment payload)] ++
       (if result.status_code ≥ 400 then [.logError] else []))

/-- `CommitReporter.report_line(commit, file_name, position, message)`:
fetch comments, pre-clean the raw message, then hand the cleaned value
to the `get_payload`/POST tail. -/
def report_line (ctx : Ctx) (getOracle : String → GetResp)
    (postOracle : String → PostBody → PostResp) (st : GHState)
    (commit file_name : String) (position : Nat) (message : PyVal) :
    Option PostResp × GHState × List Event :=
  let report_url := commitCommentsUrl ctx commit
  let r1 := get_comments getOracle st report_url
  report_line_rest ctx getOracle postOracle r1.2.1 r1.2.2 report_url
    commit file_name position
    (clean_already_reported ctx.username r1.1 file_name position message)

end CommitReporter

/-- The URL a `PRReporter` stores at construction:
`https://api.{domain}/repos/{repo_name}/pulls/{pr_number}/comments`. -/
def prCommentsUrl (ctx : Ctx) (prNumber : String) : String :=
  "https://api." ++ ctx.domain ++ "/repos/" ++ ctx.repoName ++
    "/pulls/" ++ prNumber ++ "/comments"

namespace PRReporter

/-- `PRReporter.report_line(commit, file_name, position, message)`:
`get_payload` against the PR comments URL with `commit_id` binding,
POST the payload if any, logging an error on status ≥ 400. -/
def report_line (ctx : Ctx) (prNumber : String)
    (getOracle : String → GetResp)
    (postOracle : String → PostBody → PostResp) (st : GHState)
    (commit file_name : String) (position : Nat) (message : PyVal) :
    Option PostResp × GHState × List Event :=
  let url := prCommentsUrl ctx prNumber
  let r := get_payload ctx getOracle st url (some commit) (some "commit_id")
    file_name position message
  match r.1 with
  | none => (none, r.2.1, r.2.2)
  | some payload =>
    let result := postOracle url (.comment payload)
    (some result, r.2.1,
     r.2.2 ++ [.post url (.comment payload)] ++
       (if result.status_code ≥ 400 then [.logError] else []))

end PRReporter

/-- Mutable state of a `PRReviewReporter`: the inherited `_comments`
cache and the pending-review sequence `self.comments`. -/
structure PRRState where
  cache : List Comment
  pending : List Payload
deriving DecidableEq, Repr

/-- The URL `submit_review` builds:
`https://api.{domain}/repos/{repo_name}/pulls/{pr_number}/reviews`. -/
def prReviewsUrl (ctx : Ctx) (prNumber : String) : String :=
  "https://api." ++ ctx.domain ++ "/repos/" ++ ctx.repoName ++
    "/pulls/" ++ prNumber ++ "/reviews"

namespace PRReviewReporter

/-- `PRReviewReporter.report_line(commit, file_name, position,
message)`: `get_payload` with `None, None` for commit binding; if a
payload is built, append it to `self.comments`; always return `None`
and never POST. The `commit` argument is accepted and unused, as in
the source. -/
def report_line (ctx : Ctx) (prNumber : String)
    (getOracle : String → GetResp) (st : PRRState)
    (commit file_name : String) (position : Nat) (message : PyVal) :
    Option PostResp × PRRState × List Event :=
  let _ := commit
  let url := prCommentsUrl ctx prNumber
  let r := get_payload ctx getOracle ⟨st.cache⟩ url none none
    file_name position message
  match r.1 with
  | none => (none, ⟨r.2.1._comments, st.pending⟩, r.2.2)
  | some payload => (none, ⟨r.2.1._comments, st.pending ++ [payload]⟩, r.2.2)

/-- The review body string `submit_review` formats:
`"Imhotep detected {} potential problems with this PR."`. -/
def reviewBody (n : Nat) : String :=
  "Imhotep detected " ++ toString n ++ " potential problems with this PR."

/-- `PRReviewReporter.submit_review()`: if no comments are pending,
return `None` without any transport call; otherwise POST one review
payload `{body, event: "COMMENT", comments}` to the reviews endpoint
and return the response, logging an error on status ≥ 400. -/
def submit_review (ctx : Ctx) (prNumber : String)
    (postOracle : String → PostBody → PostResp) (st : PRRState) :
    Option PostResp × PRRState × List Event :=
  let url := prReviewsUrl ctx prNumber
  if st.pending.length = 0 then
    (none, st, [])
  else
    let payload : PostBody :=
      .review (reviewBody st.pending.length) "COMMENT" st.pending
    let result := postOracle url payload
    (some result, st,
     [.post url payload] ++
       (if result.status_code ≥ 400 then [.logError] else []))

end PRReviewReporter

/-! ## Helper lemmas shared by several claims -/

/-- `clean_already_reported` acts through the first comment found by
`List.find?` with the match condition, filtering out messages that are
substrings of that comment's body; with no match it is the identity. -/
theorem clean_already_reported_eq_find (username : String)
    (comments : List Comment) (file_name : String) (position : Nat)
    (message : PyVal) :
    clean_already_reported username comments file_name position message =
      match comments.find? (matchesComment username file_name position) with
      | some c => .list ((pyElems message).filter fun m => !(pyInStr m c.body))
      | none => message := by
  induction comments with
  | nil => rfl
  | cons c rest ih =>
    rw [clean_already_reported, List.find?_cons]
    cases h : matchesComment username file_name position c with
    | true => simp [h]
    | false => simp [h, ih]

/-- The bullet rendering the spec describes: each message prefixed with
"* " and suffixed with a newline, concatenated in order. -/
def bulletRender : List String → String
  | [] => ""
  | m :: rest => "* " ++ m ++ "\n" ++ bulletRender rest

theorem convert_message_aux (l : List String) (acc : String) :
    l.foldl (fun final_message submessage =>
        final_message ++ "* " ++ submessage ++ "\n") acc =
      acc ++ bulletRender l := by
  induction l generalizing acc with
  | nil => simp [bulletRender]
  | cons m rest ih =>
    rw [List.foldl_cons, ih, bulletRender]
    simp [String.append_assoc]

/-- `convert_message_to_string` equals the spec-side bullet rendering. -/
theorem convert_message_eq_bulletRender (l : List String) :
    convert_message_to_string l = bulletRender l := by
  simpa using convert_message_aux l ""

/-! ## Claims about `clean_already_reported` (C2, C9, C10) -/

/-- C2: `clean_already_reported` scans the existing comments in order;
for the first comment whose path, position and author login match the
file name, the position and the requester's username, it returns
exactly the candidate messages that are not substrings of that single
comment's body and stops scanning; with no matching comment it returns
the candidate messages unchanged. -/
theorem clean_already_reported_first_match_filter (username : String)
    (comments : List Comment) (file_name : String) (position : Nat)
    (msgs : List String) :
    clean_already_reported username comments file_name position (.list msgs) =
      match comments.find? (matchesComment username file_name position) with
      | some c => .list (msgs.filter fun m => !(pyInStr m c.body))
      | none => .list msgs := by
  simpa [pyElems] using
    clean_already_reported_eq_find username comments file_name position (.list msgs)

/-- C9: for list-typed messages, `clean_already_reported` returns an
order-preserving sublist of its input, and applying it a second time
to its own output (same comments, file name and position) leaves that
output unchanged, so the double deduplication in
`CommitReporter.report_line` coincides with a single one on lists. -/
theorem clean_already_reported_sublist_idempotent (username : String)
    (comments : List Comment) (file_name : String) (position : Nat)
    (msgs : List String) :
    (pyElems (clean_already_reported username comments file_name position
      (.list msgs))).Sublist msgs ∧
    clean_already_reported username comments file_name position
        (clean_already_reported username comments file_name position (.list msgs)) =
      clean_already_reported username comments file_name position (.list msgs) := by
  rw [clean_already_reported_eq_find username comments file_name position (.list msgs)]
  cases hf : comments.find? (matchesComment username file_name position) with
  | none =>
    refine ⟨by simp [pyElems], ?_⟩
    rw [clean_already_reported_eq_find, hf]
  | some c =>
    refine ⟨by simp [pyElems], ?_⟩
    rw [clean_already_reported_eq_find, hf]
    simp [pyElems, List.filter_filter]

/-- C10: when `CommitReporter.report_line` receives a plain string
message and some fetched comment matches (file name, position, acting
username), the pre-payload deduplication iterates the string
character by character: `get_payload` receives the list of the
message's individual characters that do not occur in the matched
comment's body, not the message normalised to a one-element list. -/
theorem commit_report_line_string_iterates_chars (ctx : Ctx)
    (getOracle : String → GetResp)
    (postOracle : String → PostBody → PostResp)
    (comments : List Comment) (c : Comment)
    (commit file_name : String) (position : Nat) (s : String)
    (hf : comments.find? (matchesComment ctx.username file_name position) = some c) :
    CommitReporter.report_line ctx getOracle postOracle ⟨comments⟩
        commit file_name position (.str s) =
      CommitReporter.report_line_rest ctx getOracle postOracle ⟨comments⟩ []
        (commitCommentsUrl ctx commit) commit file_name position
        (.list ((strElems s).filter fun m => !(pyInStr m c.body))) := by
  have hne : comments ≠ [] := by
    intro h
    rw [h] at hf
    simp at hf
  have hclean := clean_already_reported_eq_find ctx.username comments
    file_name position (.str s)
  rw [hf] at hclean
  rw [CommitReporter.report_line]
  have hcache : get_comments getOracle ⟨comments⟩ (commitCommentsUrl ctx commit) =
      (comments, ⟨comments⟩, []) := by
    cases comments with
    | nil => exact absurd rfl hne
    | cons x xs => rfl
  rw [hcache]
  rw [hclean]
  rfl

/-- Witness for C10 at concrete data: message "abc" against an existing
matching comment with body "ab" leaves exactly the character "c". -/
theorem commit_report_line_string_iterates_chars_witness :
    CommitReporter.report_line ⟨"u", "d", "r"⟩ (fun _ => ⟨200, []⟩)
        (fun _ _ => ⟨201⟩) ⟨[⟨"f", 1, "ab", "u"⟩]⟩ "sha" "f" 1 (.str "abc") =
      CommitReporter.report_line_rest ⟨"u", "d", "r"⟩ (fun _ => ⟨200, []⟩)
        (fun _ _ => ⟨201⟩) ⟨[⟨"f", 1, "ab", "u"⟩]⟩ []
        (commitCommentsUrl ⟨"u", "d", "r"⟩ "sha") "sha" "f" 1 (.list ["c"]) := by
  have h := commit_report_line_string_iterates_chars ⟨"u", "d", "r"⟩
    (fun _ => ⟨200, []⟩) (fun _ _ => ⟨201⟩) [⟨"f", 1, "ab", "u"⟩]
    ⟨"f", 1, "ab", "u"⟩ "sha" "f" 1 "abc" (by decide)
  simpa using h

/-! ## Helper lemmas about event traces -/

theorem countGets_append (a b : List Event) :
    countGets (a ++ b) = countGets a + countGets b := by
  simp [countGets, List.filter_append]

theorem countPosts_append (a b : List Event) :
    countPosts (a ++ b) = countPosts a + countPosts b := by
  simp [countPosts, List.filter_append]

/-- A `get_comments` call performs at most one GET and no POST. -/
theorem get_comments_trace (getOracle : String → GetResp) (st : GHState)
    (url : String) :
    countGets (get_comments getOracle st url).2.2 ≤ 1 ∧
    countPosts (get_comments getOracle st url).2.2 = 0 := by
  rw [get_comments]
  by_cases h1 : st._comments.isEmpty
  · by_cases h2 : (getOracle url).status_code ≥ 400 <;>
      simp [h1, h2, countGets, countPosts, Event.isGet, Event.isPost]
  · simp [h1, countGets, countPosts]

/-- `get_payload` performs exactly the transport calls of its inner
`get_comments`, and its cache state is the one `get_comments` leaves. -/
theorem get_payload_trace (ctx : Ctx) (getOracle : String → GetResp)
    (st : GHState) (comments_url : String) (commit commit_key : Option String)
    (file_name : String) (position : Nat) (message : PyVal) :
    (get_payload ctx getOracle st comments_url commit commit_key
        file_name position message).2.2 =
      (get_comments getOracle st comments_url).2.2 ∧
    (get_payload ctx getOracle st comments_url commit commit_key
        file_name position message).2.1 =
      (get_comments getOracle st comments_url).2.1 := by
  rw [get_payload]
  by_cases h : pyIsEmpty (clean_already_reported ctx.username
      (get_comments getOracle st comments_url).1 file_name position
      (normalizeMessage message)) <;> simp [h]

/-! ## C1: the comment cache (corrected) -/

/-- C1 counterexample: with a transport that legitimately returns an
empty collection (status 200, empty body), two successive
`get_comments` calls on the same target and the same Reporter issue
two transport GETs, not one: the cache check is truthiness of the
stored result (`if not self._comments`), not explicit fetch-state
tracking. -/
theorem comment_cache_single_fetch_counterexample :
    countGets ((get_comments (fun _ => ⟨200, []⟩) ⟨[]⟩ "url").2.2 ++
      (get_comments (fun _ => ⟨200, []⟩)
        (get_comments (fun _ => ⟨200, []⟩) ⟨[]⟩ "url").2.1 "url").2.2) = 2 ∧
    ¬ countGets ((get_comments (fun _ => ⟨200, []⟩) ⟨[]⟩ "url").2.2 ++
      (get_comments (fun _ => ⟨200, []⟩)
        (get_comments (fun _ => ⟨200, []⟩) ⟨[]⟩ "url").2.1 "url").2.2) = 1 := by
  constructor
  · rfl
  · decide

/-- C1 amended: the Comment Cache's "already fetched" check is the
truthiness of the stored result, not explicit fetch-state tracking: a
`get_comments` call with a non-empty cache issues no GET and returns
the cache unchanged, and a call with an empty cache issues exactly one
GET.  Hence at most one GET per Reporter lifetime holds only once a
fetch has stored a non-empty collection; a legitimately empty remote
collection is re-fetched on every call. -/
theorem comment_cache_truthiness (getOracle : String → GetResp)
    (st : GHState) (url : String) :
    (st._comments ≠ [] →
      get_comments getOracle st url = (st._comments, st, [])) ∧
    (st._comments = [] →
      countGets (get_comments getOracle st url).2.2 = 1) := by
  constructor
  · intro h
    obtain ⟨comments⟩ := st
    cases comments with
    | nil => simp at h
    | cons x xs => rfl
  · intro h
    obtain ⟨comments⟩ := st
    simp only at h
    subst h
    rw [get_comments]
    by_cases h2 : (getOracle url).status_code ≥ 400 <;>
      simp [h2, countGets, Event.isGet]

/-- Witness for the amended C1 at concrete data: a one-comment cache
is served without any transport call; an empty cache triggers exactly
one GET. -/
theorem comment_cache_truthiness_witness :
    get_comments (fun _ => ⟨200, []⟩) ⟨[⟨"p", 1, "b", "u"⟩]⟩ "url" =
      ([⟨"p", 1, "b", "u"⟩], ⟨[⟨"p", 1, "b", "u"⟩]⟩, []) ∧
    countGets (get_comments (fun _ => ⟨200, []⟩) ⟨[]⟩ "url").2.2 = 1 :=
  ⟨(comment_cache_truthiness (fun _ => ⟨200, []⟩) ⟨[⟨"p", 1, "b", "u"⟩]⟩ "url").1
      (by decide),
   (comment_cache_truthiness (fun _ => ⟨200, []⟩) ⟨[]⟩ "url").2 rfl⟩

theorem countGets_nil : countGets [] = 0 := rfl

theorem countPosts_nil : countPosts [] = 0 := rfl

theorem countGets_cons_get (url : String) (evs : List Event) :
    countGets (.get url :: evs) = countGets evs + 1 := by
  simp [countGets, Event.isGet]

theorem countGets_cons_post (url : String) (b : PostBody) (evs : List Event) :
    countGets (.post url b :: evs) = countGets evs := by
  simp [countGets, Event.isGet]

theorem countGets_cons_logError (evs : List Event) :
    countGets (.logError :: evs) = countGets evs := by
  simp [countGets, Event.isGet]

theorem countPosts_cons_get (url : String) (evs : List Event) :
    countPosts (.get url :: evs) = countPosts evs := by
  simp [countPosts, Event.isPost]

theorem countPosts_cons_post (url : String) (b : PostBody) (evs : List Event) :
    countPosts (.post url b :: evs) = countPosts evs + 1 := by
  simp [countPosts, Event.isPost]

theorem countPosts_cons_logError (evs : List Event) :
    countPosts (.logError :: evs) = countPosts evs := by
  simp [countPosts, Event.isPost]

/-- The tail of `CommitReporter.report_line` adds at most one GET and
at most one POST to the trace it is given. -/
theorem report_line_rest_trace (ctx : Ctx) (getOracle : String → GetResp)
    (postOracle : String → PostBody → PostResp) (st1 : GHState)
    (ev1 : List Event) (url commit file_name : String) (position : Nat)
    (cleaned : PyVal) :
    countGets (CommitReporter.report_line_rest ctx getOracle postOracle st1
        ev1 url commit file_name position cleaned).2.2 ≤ countGets ev1 + 1 ∧
    countPosts (CommitReporter.report_line_rest ctx getOracle postOracle st1
        ev1 url commit file_name position cleaned).2.2 ≤ countPosts ev1 + 1 := by
  have hgp := (get_payload_trace ctx getOracle st1 url (some commit)
    (some "commit_sha") file_name position cleaned).1
  obtain ⟨hg1, hg2⟩ := get_comments_trace getOracle st1 url
  rw [CommitReporter.report_line_rest.eq_def]
  cases hp : (get_payload ctx getOracle st1 url (some commit)
      (some "commit_sha") file_name position cleaned).1 with
  | none =>
    simp only [hp, countGets_append, countPosts_append, hgp]
    constructor <;> omega
  | some payload =>
    simp only [hp]
    by_cases hs : (postOracle url (.comment payload)).status_code ≥ 400 <;>
      simp only [hs, if_pos, if_neg, if_true, if_false, countGets_append,
        countPosts_append, countGets_cons_get, countGets_cons_post,
        countGets_cons_logError, countGets_nil, countPosts_cons_get,
        countPosts_cons_post, countPosts_cons_logError, countPosts_nil, hgp] <;>
      constructor <;> omega

/-! ## C6: transport calls per `report_line` (corrected) -/

/-- C6 counterexample: when the transport legitimately returns an
empty comment collection, a single `CommitReporter.report_line` call
performs two blocking reads, not at most one: the explicit
`get_comments` call and the one inside `get_payload` each issue a GET
because the cache is still empty. -/
theorem report_line_single_read_counterexample :
    countGets (CommitReporter.report_line ⟨"u", "d", "r"⟩ (fun _ => ⟨200, []⟩)
        (fun _ _ => ⟨201⟩) ⟨[]⟩ "sha" "f" 1 (.list ["m"])).2.2 = 2 ∧
    ¬ countGets (CommitReporter.report_line ⟨"u", "d", "r"⟩ (fun _ => ⟨200, []⟩)
        (fun _ _ => ⟨201⟩) ⟨[]⟩ "sha" "f" 1 (.list ["m"])).2.2 ≤ 1 := by
  constructor
  · rfl
  · decide

/-- C6 amended: per `report_line` invocation, `CommitReporter`
performs at most two blocking reads (its direct cache fill and the one
inside `get_payload`; they coincide in one GET only once the cache
holds a non-empty collection) and at most one blocking write;
`PRReporter.report_line` performs at most one read and at most one
write; `PRReviewReporter.report_line` performs at most one read and no
write. -/
theorem report_line_transport_bounds :
    (∀ (ctx : Ctx) (getOracle : String → GetResp)
        (postOracle : String → PostBody → PostResp) (st : GHState)
        (commit file_name : String) (position : Nat) (message : PyVal),
      countGets (CommitReporter.report_line ctx getOracle postOracle st
          commit file_name position message).2.2 ≤ 2 ∧
      countPosts (CommitReporter.report_line ctx getOracle postOracle st
          commit file_name position message).2.2 ≤ 1) ∧
    (∀ (ctx : Ctx) (prNumber : String) (getOracle : String → GetResp)
        (postOracle : String → PostBody → PostResp) (st : GHState)
        (commit file_name : String) (position : Nat) (message : PyVal),
      countGets (PRReporter.report_line ctx prNumber getOracle postOracle st
          commit file_name position message).2.2 ≤ 1 ∧
      countPosts (PRReporter.report_line ctx prNumber getOracle postOracle st
          commit file_name position message).2.2 ≤ 1) ∧
    (∀ (ctx : Ctx) (prNumber : String) (getOracle : String → GetResp)
        (st : PRRState) (commit file_name : String) (position : Nat)
        (message : PyVal),
      countGets (PRReviewReporter.report_line ctx prNumber getOracle st
          commit file_name position message).2.2 ≤ 1 ∧
      countPosts (PRReviewReporter.report_line ctx prNumber getOracle st
          commit file_name position message).2.2 = 0) := by
  refine ⟨?_, ?_, ?_⟩
  · intro ctx getOracle postOracle st commit file_name position message
    simp only [CommitReporter.report_line]
    obtain ⟨h1, h2⟩ := report_line_rest_trace ctx getOracle postOracle
      (get_comments getOracle st (commitCommentsUrl ctx commit)).2.1
      (get_comments getOracle st (commitCommentsUrl ctx commit)).2.2
      (commitCommentsUrl ctx commit) commit file_name position
      (clean_already_reported ctx.username
        (get_comments getOracle st (commitCommentsUrl ctx commit)).1
        file_name position message)
    obtain ⟨h3, h4⟩ := get_comments_trace getOracle st (commitCommentsUrl ctx commit)
    constructor <;> omega
  · intro ctx prNumber getOracle postOracle st commit file_name position message
    have hgp := (get_payload_trace ctx getOracle st (prCommentsUrl ctx prNumber)
      (some commit) (some "commit_id") file_name position message).1
    obtain ⟨hg1, hg2⟩ := get_comments_trace getOracle st (prCommentsUrl ctx prNumber)
    rw [PRReporter.report_line.eq_def]
    cases hp : (get_payload ctx getOracle st (prCommentsUrl ctx prNumber)
        (some commit) (some "commit_id") file_name position message).1 with
    | none =>
      simp only [hp, hgp]
      constructor <;> omega
    | some payload =>
      simp only [hp]
      by_cases hs : (postOracle (prCommentsUrl ctx prNumber)
          (.comment payload)).status_code ≥ 400 <;>
        simp only [hs, if_true, if_false, countGets_append, countPosts_append,
          countGets_cons_get, countGets_cons_post, countGets_cons_logError,
          countGets_nil, countPosts_cons_get, countPosts_cons_post,
          countPosts_cons_logError, countPosts_nil, hgp] <;>
        constructor <;> omega
  · intro ctx prNumber getOracle st commit file_name position message
    have hgp := (get_payload_trace ctx getOracle ⟨st.cache⟩
      (prCommentsUrl ctx prNumber) none none file_name position message).1
    obtain ⟨hg1, hg2⟩ := get_comments_trace getOracle ⟨st.cache⟩
      (prCommentsUrl ctx prNumber)
    rw [PRReviewReporter.report_line.eq_def]
    cases hp : (get_payload ctx getOracle ⟨st.cache⟩ (prCommentsUrl ctx prNumber)
        none none file_name position message).1 with
    | none =>
      simp only [hp, hgp]
      constructor <;> omega
    | some payload =>
      simp only [hp, hgp]
      constructor <;> omega

theorem countGets_errlog (c : Prop) [Decidable c] :
    countGets (if c then [.logError] else []) = 0 := by
  split <;> rfl

theorem countPosts_errlog (c : Prop) [Decidable c] :
    countPosts (if c then [.logError] else []) = 0 := by
  split <;> rfl

/-- The value `get_payload` returns, in closed form: `None` exactly
when nothing survives deduplication of the normalised message, else
the rendered payload with the commit binding. -/
theorem get_payload_eq (ctx : Ctx) (getOracle : String → GetResp)
    (st : GHState) (comments_url : String) (commit commit_key : Option String)
    (file_name : String) (position : Nat) (message : PyVal) :
    (get_payload ctx getOracle st comments_url commit commit_key
        file_name position message).1 =
      if pyIsEmpty (clean_already_reported ctx.username
          (get_comments getOracle st comments_url).1 file_name position
          (normalizeMessage message)) then none
      else some ⟨convert_message_to_string (pyElems (clean_already_reported
            ctx.username (get_comments getOracle st comments_url).1 file_name
            position (normalizeMessage message))),
        file_name, position, mkCommitField commit_key commit⟩ := by
  rw [get_payload]
  by_cases h : pyIsEmpty (clean_already_reported ctx.username
      (get_comments getOracle st comments_url).1 file_name position
      (normalizeMessage message)) <;> simp [h]

/-! ## C4: PRReviewReporter never posts from report_line -/

/-- C4: on a `PRReviewReporter`, `report_line` always returns `None`
and its trace contains no transport POST; the pending-review sequence
grows by the built payload exactly when `get_payload` returns one and
is unchanged otherwise; only `submit_review` performs a POST, and it
does so exactly when at least one payload is pending. -/
theorem prreview_report_line_never_posts :
    (∀ (ctx : Ctx) (prNumber : String) (getOracle : String → GetResp)
        (st : PRRState) (commit file_name : String) (position : Nat)
        (message : PyVal),
      (PRReviewReporter.report_line ctx prNumber getOracle st commit
          file_name position message).1 = none ∧
      countPosts (PRReviewReporter.report_line ctx prNumber getOracle st commit
          file_name position message).2.2 = 0 ∧
      (PRReviewReporter.report_line ctx prNumber getOracle st commit
          file_name position message).2.1.pending =
        (match (get_payload ctx getOracle ⟨st.cache⟩ (prCommentsUrl ctx prNumber)
            none none file_name position message).1 with
         | none => st.pending
         | some payload => st.pending ++ [payload])) ∧
    (∀ (ctx : Ctx) (prNumber : String)
        (postOracle : String → PostBody → PostResp) (st : PRRState),
      countPosts (PRReviewReporter.submit_review ctx prNumber postOracle st).2.2 =
        if st.pending = [] then 0 else 1) := by
  constructor
  · intro ctx prNumber getOracle st commit file_name position message
    have hgp := (get_payload_trace ctx getOracle ⟨st.cache⟩
      (prCommentsUrl ctx prNumber) none none file_name position message).1
    obtain ⟨hg1, hg2⟩ := get_comments_trace getOracle ⟨st.cache⟩
      (prCommentsUrl ctx prNumber)
    rw [PRReviewReporter.report_line.eq_def]
    cases hp : (get_payload ctx getOracle ⟨st.cache⟩ (prCommentsUrl ctx prNumber)
        none none file_name position message).1 with
    | none => simp [hp, hgp, hg2]
    | some payload => simp [hp, hgp, hg2]
  · intro ctx prNumber postOracle st
    rw [PRReviewReporter.submit_review.eq_def]
    by_cases hlen : st.pending.length = 0
    · have hnil : st.pending = [] := List.length_eq_zero.mp hlen
      simp [hlen, hnil, countPosts_nil]
    · have hne : ¬ st.pending = [] := fun h => hlen (by simp [h])
      simp [hlen, hne, countPosts_append, countPosts_cons_post,
        countPosts_nil, countPosts_errlog]

/-! ## C5: submit_review payload shape -/

/-- C5: `submit_review` with an empty `PendingReview` is a no-op
returning `None` with no transport call; with `N` pending payloads it
posts exactly one review payload with body
`"Imhotep detected {N} potential problems with this PR."`, event
`"COMMENT"` and the pending comments, to the reviews endpoint, leaves
the state unchanged, and returns the transport response. -/
theorem submit_review_shape :
    ∀ (ctx : Ctx) (prNumber : String)
      (postOracle : String → PostBody → PostResp) (st : PRRState),
      (st.pending = [] →
        PRReviewReporter.submit_review ctx prNumber postOracle st =
          (none, st, [])) ∧
      (st.pending ≠ [] →
        (PRReviewReporter.submit_review ctx prNumber postOracle st).1 =
          some (postOracle (prReviewsUrl ctx prNumber)
            (.review ("Imhotep detected " ++ toString st.pending.length ++
                " potential problems with this PR.") "COMMENT" st.pending)) ∧
        (PRReviewReporter.submit_review ctx prNumber postOracle st).2.1 = st ∧
        (PRReviewReporter.submit_review ctx prNumber postOracle st).2.2.filter
            Event.isPost =
          [.post (prReviewsUrl ctx prNumber)
            (.review ("Imhotep detected " ++ toString st.pending.length ++
                " potential problems with this PR.") "COMMENT" st.pending)]) := by
  intro ctx prNumber postOracle st
  constructor
  · intro hnil
    rw [PRReviewReporter.submit_review.eq_def]
    simp [hnil]
  · intro hne
    have hlen : ¬ st.pending.length = 0 := fun h => hne (List.length_eq_zero.mp h)
    rw [PRReviewReporter.submit_review.eq_def]
    refine ⟨by simp [hlen, PRReviewReporter.reviewBody], by simp [hlen], ?_⟩
    by_cases hs : (postOracle (prReviewsUrl ctx prNumber)
        (.review (PRReviewReporter.reviewBody st.pending.length) "COMMENT"
          st.pending)).status_code ≥ 400 <;>
      simp [hlen, hs, PRReviewReporter.reviewBody, Event.isPost]

/-- Witness for C5: an empty pending review is a no-op; a singleton
pending review posts and returns the transport response. -/
theorem submit_review_shape_witness :
    PRReviewReporter.submit_review ⟨"u", "d", "r"⟩ "1" (fun _ _ => ⟨200⟩)
        ⟨[], []⟩ = (none, ⟨[], []⟩, []) ∧
    (PRReviewReporter.submit_review ⟨"u", "d", "r"⟩ "1" (fun _ _ => ⟨200⟩)
        ⟨[], [⟨"* m\n", "f", 1, none⟩]⟩).1 = some ⟨200⟩ :=
  ⟨(submit_review_shape ⟨"u", "d", "r"⟩ "1" (fun _ _ => ⟨200⟩) ⟨[], []⟩).1 rfl,
   ((submit_review_shape ⟨"u", "d", "r"⟩ "1" (fun _ _ => ⟨200⟩)
      ⟨[], [⟨"* m\n", "f", 1, none⟩]⟩).2 (by decide)).1⟩

/-- Any payload `get_payload` returns is the rendered surviving
messages with the given path, position and commit binding. -/
theorem get_payload_some_shape (ctx : Ctx) (getOracle : String → GetResp)
    (st : GHState) (comments_url : String) (commit commit_key : Option String)
    (file_name : String) (position : Nat) (message : PyVal) (payload : Payload)
    (hp : (get_payload ctx getOracle st comments_url commit commit_key
        file_name position message).1 = some payload) :
    payload = ⟨convert_message_to_string (pyElems (clean_already_reported
        ctx.username (get_comments getOracle st comments_url).1 file_name
        position (normalizeMessage message))),
      file_name, position, mkCommitField commit_key commit⟩ := by
  rw [get_payload_eq] at hp
  by_cases h : pyIsEmpty (clean_already_reported ctx.username
      (get_comments getOracle st comments_url).1 file_name position
      (normalizeMessage message))
  · rw [if_pos h] at hp
    exact absurd hp (by simp)
  · rw [if_neg h] at hp
    exact (Option.some_inj.mp hp).symm

/-! ## C7: commit binding in payloads -/

/-- C7: a payload returned by `get_payload` carries the commit
reference under the given field name exactly when both the commit and
the field-name argument are non-null, and carries no commit field
otherwise; consequently every payload `PRReviewReporter.report_line`
appends to the pending review (built with both commit arguments null)
carries no commit field. -/
theorem get_payload_commit_binding :
    (∀ (ctx : Ctx) (getOracle : String → GetResp) (st : GHState)
        (comments_url : String) (commit commit_key : Option String)
        (file_name : String) (position : Nat) (message : PyVal)
        (payload : Payload),
      (get_payload ctx getOracle st comments_url commit commit_key
          file_name position message).1 = some payload →
      ((∃ k c, commit_key = some k ∧ commit = some c ∧
          payload.commitField = some (k, c)) ∨
        ((commit_key = none ∨ commit = none) ∧ payload.commitField = none))) ∧
    (∀ (ctx : Ctx) (prNumber : String) (getOracle : String → GetResp)
        (st : PRRState) (commit file_name : String) (position : Nat)
        (message : PyVal) (payload : Payload),
      payload ∈ (PRReviewReporter.report_line ctx prNumber getOracle st commit
          file_name position message).2.1.pending →
      payload ∈ st.pending ∨ payload.commitField = none) := by
  constructor
  · intro ctx getOracle st comments_url commit commit_key file_name position
      message payload hp
    have hshape := get_payload_some_shape ctx getOracle st comments_url commit
      commit_key file_name position message payload hp
    cases commit_key with
    | none => exact Or.inr ⟨Or.inl rfl, by simp [hshape, mkCommitField]⟩
    | some k =>
      cases commit with
      | none => exact Or.inr ⟨Or.inr rfl, by simp [hshape, mkCommitField]⟩
      | some c => exact Or.inl ⟨k, c, rfl, rfl, by simp [hshape, mkCommitField]⟩
  · intro ctx prNumber getOracle st commit file_name position message payload hmem
    rw [PRReviewReporter.report_line.eq_def] at hmem
    cases hp : (get_payload ctx getOracle ⟨st.cache⟩ (prCommentsUrl ctx prNumber)
        none none file_name position message).1 with
    | none =>
      simp only [hp] at hmem
      exact Or.inl hmem
    | some q =>
      simp only [hp] at hmem
      rcases List.mem_append.mp hmem with h | h
      · exact Or.inl h
      · have hq := get_payload_some_shape ctx getOracle ⟨st.cache⟩
          (prCommentsUrl ctx prNumber) none none file_name position message q hp
        have hpq : payload = q := by simpa using h
        exact Or.inr (by simp [hpq, hq, mkCommitField])

/-- Witness for C7: a payload built with both commit arguments present
carries the commit entry; a payload appended by
`PRReviewReporter.report_line` carries none. -/
theorem get_payload_commit_binding_witness :
    ((∃ k c, (some "commit_sha" : Option String) = some k ∧
        (some "sha" : Option String) = some c ∧
        (Payload.mk "* m\n" "f" 1 (some ("commit_sha", "sha"))).commitField =
          some (k, c)) ∨
      (((some "commit_sha" : Option String) = none ∨
          (some "sha" : Option String) = none) ∧
        (Payload.mk "* m\n" "f" 1 (some ("commit_sha", "sha"))).commitField =
          none)) ∧
    (Payload.mk "* m\n" "f" 1 none ∈ ([] : List Payload) ∨
      (Payload.mk "* m\n" "f" 1 none).commitField = none) :=
  ⟨get_payload_commit_binding.1 ⟨"u", "d", "r"⟩ (fun _ => ⟨200, []⟩) ⟨[]⟩
      "url" (some "sha") (some "commit_sha") "f" 1 (.list ["m"]) _ (by decide),
   get_payload_commit_binding.2 ⟨"u", "d", "r"⟩ "1" (fun _ => ⟨200, []⟩)
      ⟨[], []⟩ "sha" "f" 1 (.list ["m"]) _ (by decide)⟩

/-! ## C8: transport errors while fetching comments -/

/-- C8: when the cache is empty and the transport GET returns a status
of at least 400, `get_comments` logs the error and returns the empty
cache as-is: the state is unchanged and the cache is never populated
from the error response body; the embedding is total, so no exception
propagates. -/
theorem get_comments_error_keeps_cache :
    ∀ (getOracle : String → GetResp) (st : GHState) (url : String),
      st._comments = [] →
      (getOracle url).status_code ≥ 400 →
      get_comments getOracle st url = ([], st, [.get url, .logError]) := by
  intro getOracle st url hempty hstatus
  rw [get_comments]
  simp [hempty, hstatus]

/-- Witness for C8: a 400 response whose body holds a comment neither
raises nor populates the cache; the empty collection is returned. -/
theorem get_comments_error_keeps_cache_witness :
    get_comments (fun _ => ⟨400, [⟨"p", 1, "b", "u"⟩]⟩) ⟨[]⟩ "url" =
      ([], ⟨[]⟩, [.get "url", .logError]) :=
  get_comments_error_keeps_cache (fun _ => ⟨400, [⟨"p", 1, "b", "u"⟩]⟩) ⟨[]⟩
    "url" rfl (by decide)

/-! ## C3: get_payload is null iff everything was already reported -/

/-- C3: for a list-typed message, `get_payload` returns `None` exactly
when every candidate message is already reported (the deduplicated
list is empty); otherwise it returns a payload whose body is the
bullet rendering, in original input order, of the surviving messages
(each prefixed with "* " and suffixed with a newline), with the given
path and position. -/
theorem get_payload_none_iff_all_reported :
    ∀ (ctx : Ctx) (getOracle : String → GetResp) (st : GHState)
      (comments_url : String) (commit commit_key : Option String)
      (file_name : String) (position : Nat) (msgs : List String),
      ((get_payload ctx getOracle st comments_url commit commit_key
          file_name position (.list msgs)).1 = none ↔
        pyElems (clean_already_reported ctx.username
          (get_comments getOracle st comments_url).1 file_name position
          (.list msgs)) = []) ∧
      (pyElems (clean_already_reported ctx.username
          (get_comments getOracle st comments_url).1 file_name position
          (.list msgs)) ≠ [] →
        (get_payload ctx getOracle st comments_url commit commit_key
            file_name position (.list msgs)).1 =
          some ⟨bulletRender (pyElems (clean_already_reported ctx.username
              (get_comments getOracle st comments_url).1 file_name position
              (.list msgs))), file_name, position,
            mkCommitField commit_key commit⟩) := by
  intro ctx getOracle st comments_url commit commit_key file_name position msgs
  have hn : normalizeMessage (.list msgs) = .list msgs := rfl
  rw [get_payload_eq, hn]
  by_cases h : pyElems (clean_already_reported ctx.username
      (get_comments getOracle st comments_url).1 file_name position
      (.list msgs)) = []
  · have hb : pyIsEmpty (clean_already_reported ctx.username
        (get_comments getOracle st comments_url).1 file_name position
        (.list msgs)) = true := by simp [pyIsEmpty, h]
    simp [hb, h]
  · have hb : pyIsEmpty (clean_already_reported ctx.username
        (get_comments getOracle st comments_url).1 file_name position
        (.list msgs)) = false := by simp [pyIsEmpty, h]
    simp [hb, h, convert_message_eq_bulletRender]

/-- Witness for C3 at the spec's scenario: an existing comment at
("foo.py", 2) with body "Get that out" by the acting identity
"magicmock" makes re-reporting the identical message yield `None`,
while a fresh message yields the bullet payload. -/
theorem get_payload_none_iff_all_reported_witness :
    (get_payload ⟨"magicmock", "github.com", "r"⟩
        (fun _ => ⟨200, [⟨"foo.py", 2, "Get that out", "magicmock"⟩]⟩) ⟨[]⟩
        "url" (some "sha") (some "commit_id") "foo.py" 2
        (.list ["Get that out"])).1 = none ∧
    (get_payload ⟨"magicmock", "github.com", "r"⟩
        (fun _ => ⟨200, [⟨"foo.py", 2, "Get that out", "magicmock"⟩]⟩) ⟨[]⟩
        "url" (some "sha") (some "commit_id") "foo.py" 2
        (.list ["New message"])).1 =
      some ⟨"* New message\n", "foo.py", 2, some ("commit_id", "sha")⟩ := by
  constructor
  · exact (get_payload_none_iff_all_reported ⟨"magicmock", "github.com", "r"⟩
      (fun _ => ⟨200, [⟨"foo.py", 2, "Get that out", "magicmock"⟩]⟩) ⟨[]⟩
      "url" (some "sha") (some "commit_id") "foo.py" 2
      ["Get that out"]).1.mpr (by decide)
  · have h := (get_payload_none_iff_all_reported ⟨"magicmock", "github.com", "r"⟩
      (fun _ => ⟨200, [⟨"foo.py", 2, "Get that out", "magicmock"⟩]⟩) ⟨[]⟩
      "url" (some "sha") (some "commit_id") "foo.py" 2
      ["New message"]).2 (by decide)
    rw [h]
    rfl
